import Mathlib

/-!
Shallow embedding of the rolling-window accumulator in
`core/collection/rollingwindow.go`, together with theorems settling the
specification claims about it.

Modelling conventions:
- Go `time.Duration` values (int64 nanoseconds) are modelled as `Int`;
  64-bit overflow plays no role in the verified properties, and Go `/` and
  `%` on integers truncate toward zero, hence `Int.tdiv` and `Int.tmod`.
- `float64` bucket sums are modelled as `Rat`; every addition appearing in
  the concrete scenarios below is exact in binary floating point, so the
  model agrees with the code on those inputs.
- The monotonic clock `timex.Now()` is an explicit `now : Int` argument;
  the two clock reads inside one `Add` call are modelled as one instant.
- Go run-time faults are modelled by `Option`: the constructor returns
  `none` where the code refuses construction, and the `Checked` operation
  variants return `none` where `span` would divide by zero.
- The reader/writer lock is dropped: each operation is a pure state
  transformer on the controller state.
-/

/-- Bucket (`Bucket` in the source) holds the running sum and addition
count of one time slice. -/
structure Bucket where
  Sum : Rat
  Count : Int
deriving DecidableEq

instance : Inhabited Bucket := ⟨⟨0, 0⟩⟩

/-- Go `func (b *Bucket) add(v float64)`. -/
def Bucket.add (b : Bucket) (v : Rat) : Bucket :=
  { Sum := b.Sum + v, Count := b.Count + 1 }

/-- Go `func (b *Bucket) reset()`. -/
def Bucket.reset (_b : Bucket) : Bucket :=
  { Sum := 0, Count := 0 }

/-- Go `func (w *window) add(offset int, v float64)`: delegate to the
bucket at `offset % size`. The ring store fields (`buckets`, `size`) are
passed explicitly. -/
def winAdd (size : Nat) (buckets : List Bucket) (offset : Nat) (v : Rat) : List Bucket :=
  buckets.set (offset % size) ((buckets.getD (offset % size) (⟨0, 0⟩ : Bucket)).add v)

/-- Go `func (w *window) resetBucket(offset int)`. -/
def winResetBucket (size : Nat) (buckets : List Bucket) (offset : Nat) : List Bucket :=
  buckets.set (offset % size) ((buckets.getD (offset % size) (⟨0, 0⟩ : Bucket)).reset)

/-- Ring slots touched by Go `func (w *window) reduce(start, count, fn)`:
the loop body at iteration `i` visits slot `(start+i) % size`; the list is
built in loop order. -/
def winReduceIdx (size start : Nat) : Nat → List Nat
  | 0 => []
  | n + 1 => winReduceIdx size start n ++ [(start + n) % size]

/-- Controller state (`RollingWindow` in the source, minus the lock; the
ring store is inlined as `buckets`, sharing the `size` field as in the
source, where both structs carry the same size). -/
structure RollingWindow where
  size : Nat
  buckets : List Bucket
  interval : Int
  offset : Nat
  ignoreCurrent : Bool
  lastTime : Int
deriving DecidableEq

/-- Go `func (rw *RollingWindow) span() int`: truncating division of the
elapsed time by the interval (the Go local variable `offset` is inlined),
clamped to `size` when the quotient falls outside `[0, size)`. -/
def RollingWindow.span (rw : RollingWindow) (now : Int) : Int :=
  if 0 ≤ Int.tdiv (now - rw.lastTime) rw.interval
      ∧ Int.tdiv (now - rw.lastTime) rw.interval < (rw.size : Int) then
    Int.tdiv (now - rw.lastTime) rw.interval
  else
    (rw.size : Int)

/-- Span as a natural number (the span is never negative, see
`span_nonneg`). -/
def RollingWindow.spanNat (rw : RollingWindow) (now : Int) : Nat :=
  (rw.span now).toNat

/-- Go `func (rw *RollingWindow) updateOffset()`. -/
def RollingWindow.updateOffset (rw : RollingWindow) (now : Int) : RollingWindow :=
  if rw.span now ≤ 0 then rw
  else
    { rw with
      buckets := (List.range (rw.span now).toNat).foldl
        (fun bs i => winResetBucket rw.size bs ((rw.offset + i + 1) % rw.size)) rw.buckets,
      offset := (rw.offset + (rw.span now).toNat) % rw.size,
      lastTime := now - Int.tmod (now - rw.lastTime) rw.interval }

/-- Go `func (rw *RollingWindow) Add(v float64)`. -/
def RollingWindow.Add (rw : RollingWindow) (now : Int) (v : Rat) : RollingWindow :=
  let rw2 := rw.updateOffset now
  { rw2 with buckets := winAdd rw2.size rw2.buckets rw2.offset v }

/-- Valid-bucket count (the Go local variable `diff`) computed by
`Reduce`. -/
def RollingWindow.reduceDiff (rw : RollingWindow) (now : Int) : Int :=
  if rw.span now = 0 ∧ rw.ignoreCurrent then (rw.size : Int) - 1
  else (rw.size : Int) - rw.span now

/-- Start slot `(rw.offset + span + 1) % rw.size` computed by `Reduce`. -/
def RollingWindow.reduceStart (rw : RollingWindow) (now : Int) : Nat :=
  (rw.offset + rw.spanNat now + 1) % rw.size

/-- Ring slots visited by Go `Reduce`, in visit order: the ring store
loop runs only when `diff > 0`. -/
def RollingWindow.reduceIndices (rw : RollingWindow) (now : Int) : List Nat :=
  if 0 < rw.reduceDiff now then
    winReduceIdx rw.size (rw.reduceStart now) (rw.reduceDiff now).toNat
  else []

/-- Go `func (rw *RollingWindow) Reduce(fn func(b *Bucket))`: the visitor
receives a pointer to each visited bucket, so a mutating visitor writes
back in place; this is modelled by replacing each visited slot with `fn`
of its content, in visit order. -/
def RollingWindow.Reduce (rw : RollingWindow) (now : Int) (fn : Bucket → Bucket) :
    RollingWindow :=
  { rw with
    buckets := (rw.reduceIndices now).foldl
      (fun bs j => bs.set j (fn (bs.getD j ⟨0, 0⟩))) rw.buckets }

/-- Buckets a non-mutating visitor observes during `Reduce`, in visit
order. -/
def RollingWindow.visitedBuckets (rw : RollingWindow) (now : Int) : List Bucket :=
  (rw.reduceIndices now).map (fun j => rw.buckets.getD j ⟨0, 0⟩)

/-- Go `func NewRollingWindow(size int, interval time.Duration, opts ...)`:
the `panic` on `size < 1` is modelled as `none`; the only existing option,
`IgnoreCurrentBucket`, is the boolean argument; `lastTime` is the
construction-time clock reading, and `newWindow` fills the ring with
`size` zero-value buckets. -/
def NewRollingWindow (size : Int) (interval : Int) (ignoreCurrent : Bool) (now : Int) :
    Option RollingWindow :=
  if size < 1 then none
  else some
    { size := size.toNat,
      buckets := List.replicate size.toNat ⟨0, 0⟩,
      interval := interval,
      offset := 0,
      ignoreCurrent := ignoreCurrent,
      lastTime := now }

/-- Go integer division by zero is a run-time fault; `span` divides by
`rw.interval` unconditionally, so the fault fires exactly when the
interval is zero. `none` models the fault. -/
def RollingWindow.spanChecked (rw : RollingWindow) (now : Int) : Option Int :=
  if rw.interval = 0 then none else some (rw.span now)

/-- Add with the division-by-zero fault inside `span` made explicit. -/
def RollingWindow.AddChecked (rw : RollingWindow) (now : Int) (v : Rat) :
    Option RollingWindow :=
  match rw.spanChecked now with
  | none => none
  | some _ => some (rw.Add now v)

/-- Reduce with the division-by-zero fault inside `span` made explicit. -/
def RollingWindow.ReduceChecked (rw : RollingWindow) (now : Int) (fn : Bucket → Bucket) :
    Option RollingWindow :=
  match rw.spanChecked now with
  | none => none
  | some _ => some (rw.Reduce now fn)

/-- Total of the sums of a list of buckets (what a summing visitor
accumulates). -/
def sumTotal (l : List Bucket) : Rat :=
  l.foldl (fun a b => a + b.Sum) 0

/-- Total of the counts of a list of buckets. -/
def countTotal (l : List Bucket) : Int :=
  l.foldl (fun a b => a + b.Count) 0

/-- External calls a client can make, with the clock reading at the
call. -/
inductive Event where
  | add (now : Int) (v : Rat)
  | reduce (now : Int)
deriving DecidableEq

/-- Clock reading of an event. -/
def Event.now : Event → Int
  | .add n _ => n
  | .reduce n => n

/-- Effect of one call on the controller; a `reduce` call uses a
non-mutating visitor. -/
def step (rw : RollingWindow) : Event → RollingWindow
  | .add now v => rw.Add now v
  | .reduce now => rw.Reduce now (fun b => b)

/-- Run a sequence of calls. -/
def exec (rw : RollingWindow) : List Event → RollingWindow
  | [] => rw
  | e :: es => exec (step rw e) es

/-- True when, at some call of the run, at least one bucket had become
stale: the span observed by that call is positive, meaning whole buckets
fell outside the window (an `add` resets them; a `reduce` skips them). -/
def anyStale (rw : RollingWindow) : List Event → Bool
  | [] => false
  | e :: es => decide (0 < rw.span e.now) || anyStale (step rw e) es

/-- Specification-worded span, for comparison with the code: the spec
defines `rawSpan = floor(elapsed / interval)`, i.e. flooring division,
where the code divides truncating toward zero. -/
def spanSpecFloor (rw : RollingWindow) (now : Int) : Int :=
  if 0 ≤ Int.fdiv (now - rw.lastTime) rw.interval
      ∧ Int.fdiv (now - rw.lastTime) rw.interval < (rw.size : Int) then
    Int.fdiv (now - rw.lastTime) rw.interval
  else
    (rw.size : Int)

/-- Fresh controller with three buckets, interval 10 time units,
`ignoreCurrent` unset, built at time 0 (the state `NewRollingWindow
3 10 false 0` yields). -/
def w3 : RollingWindow :=
  { size := 3, buckets := List.replicate 3 ⟨0, 0⟩, interval := 10,
    offset := 0, ignoreCurrent := false, lastTime := 0 }

/-- Same as `w3` with `IgnoreCurrentBucket` set. -/
def w3i : RollingWindow :=
  { w3 with ignoreCurrent := true }

/-- Same as `w3` but built at time 100, to feed earlier clock readings
(simulated clock regression). -/
def w3b : RollingWindow :=
  { w3 with lastTime := 100 }

/-- Controller built with interval 0 (what `NewRollingWindow 3 0 false 0`
yields). -/
def wz : RollingWindow :=
  { size := 3, buckets := List.replicate 3 ⟨0, 0⟩, interval := 0,
    offset := 0, ignoreCurrent := false, lastTime := 0 }

/-- Raw ring-buffer indices accessed by one `Add` call, after the ring
store applies its own `% size`: the reset loop touches
`((offset+i+1) % size) % size` for each `i` below the span, and the final
write touches the advanced cursor modulo `size`. -/
def RollingWindow.addAccesses (rw : RollingWindow) (now : Int) : List Nat :=
  (List.range (rw.spanNat now)).map (fun i => ((rw.offset + i + 1) % rw.size) % rw.size)
    ++ [(rw.updateOffset now).offset % rw.size]

/-- The span is never negative: both branches of the clamp are
nonnegative. -/
theorem span_nonneg (rw : RollingWindow) (now : Int) : 0 ≤ rw.span now := by
  unfold RollingWindow.span
  split <;> omega

/-- The span never exceeds the bucket count. -/
theorem span_le_size (rw : RollingWindow) (now : Int) : rw.span now ≤ (rw.size : Int) := by
  unfold RollingWindow.span
  split <;> omega

/-- Casting the natural-number span back to `Int` recovers the span. -/
theorem spanNat_cast (rw : RollingWindow) (now : Int) :
    (rw.spanNat now : Int) = rw.span now :=
  Int.toNat_of_nonneg (span_nonneg rw now)

/-- Setting a list element to its own current value leaves the list
unchanged. -/
theorem setGetDSelf {α : Type} (l : List α) (i : Nat) (d : α) :
    l.set i (l.getD i d) = l := by
  induction l generalizing i with
  | nil => rfl
  | cons a t ih =>
    cases i with
    | zero => rfl
    | succ n =>
      show a :: t.set n (t.getD n d) = a :: t
      rw [ih]

/-- The ring store reduce loop visits `(start+i) % size` for `i` ranging
over `[0, n)`, in ascending order. -/
theorem winReduceIdx_eq (size start : Nat) :
    ∀ n, winReduceIdx size start n = (List.range n).map (fun i => (start + i) % size) := by
  intro n
  induction n with
  | zero => rfl
  | succ m ih =>
    rw [winReduceIdx, List.range_succ, List.map_append, ih]
    rfl

/-- The ring store reduce loop performs exactly `n` visits. -/
theorem winReduceIdx_length (size start n : Nat) :
    (winReduceIdx size start n).length = n := by
  rw [winReduceIdx_eq]
  simp

/-- When at most `size` slots are visited, no slot is visited twice. -/
theorem winReduceIdx_nodup (size start n : Nat) (h : n ≤ size) :
    (winReduceIdx size start n).Nodup := by
  rw [winReduceIdx_eq]
  refine List.Nodup.map_on ?_ (List.nodup_range _)
  intro i hi j hj hij
  rw [List.mem_range] at hi hj
  have h2 : i % size = j % size := Nat.ModEq.add_left_cancel' start hij
  rwa [Nat.mod_eq_of_lt (lt_of_lt_of_le hi h), Nat.mod_eq_of_lt (lt_of_lt_of_le hj h)] at h2

/-- With a positive valid-bucket count, the visited slots are the ring
store loop over that count. -/
theorem reduceIndices_of_pos (rw : RollingWindow) (now : Int)
    (h : 0 < rw.reduceDiff now) :
    rw.reduceIndices now
      = winReduceIdx rw.size (rw.reduceStart now) (rw.reduceDiff now).toNat := by
  unfold RollingWindow.reduceIndices
  rw [if_pos h]

/-- With a nonpositive valid-bucket count, no slot is visited. -/
theorem reduceIndices_of_nonpos (rw : RollingWindow) (now : Int)
    (h : rw.reduceDiff now ≤ 0) :
    rw.reduceIndices now = [] := by
  unfold RollingWindow.reduceIndices
  rw [if_neg (by omega)]

/-- The valid-bucket count never exceeds the bucket count. -/
theorem reduceDiff_le_size (rw : RollingWindow) (now : Int) :
    rw.reduceDiff now ≤ (rw.size : Int) := by
  unfold RollingWindow.reduceDiff
  have := span_nonneg rw now
  split <;> omega

/-- The number of visited slots is the valid-bucket count, when that
count is positive. -/
theorem reduceIndices_length_of_pos (rw : RollingWindow) (now : Int)
    (h : 0 < rw.reduceDiff now) :
    (rw.reduceIndices now).length = (rw.reduceDiff now).toNat := by
  rw [reduceIndices_of_pos rw now h, winReduceIdx_length]

/-- C1 (counterexample): with three buckets, interval 10 and `lastTime`
10, a clock reading of 5 gives elapsed -5; the spec's flooring `rawSpan`
is -1, so the claim demands `span = size = 3`, but the code's
truncating division yields quotient 0, which passes the range check, and
`span` returns 0. -/
theorem c1_span_counterexample :
    RollingWindow.span { w3 with lastTime := 10 } 5 = 0
    ∧ spanSpecFloor { w3 with lastTime := 10 } 5 = 3
    ∧ Int.fdiv (5 - 10) 10 = -1 := by
  refine ⟨by decide, by decide, by decide⟩

/-- C1 (amended): `span` computes the elapsed time divided by the
interval *truncating toward zero* and clamps to `size` outside
`[0, size)`. For a clock at or past `lastTime` this agrees with the
spec's flooring division; for a clock regression of less than one
interval the truncated quotient is 0, so `span` returns 0 (not `size`);
only a regression of at least one full interval returns `size`. -/
theorem span_characterization (rw : RollingWindow) (now : Int)
    (hsz : 1 ≤ rw.size) (hiv : 0 < rw.interval) :
    (rw.lastTime ≤ now →
      rw.span now
        = if Int.fdiv (now - rw.lastTime) rw.interval < (rw.size : Int)
          then Int.fdiv (now - rw.lastTime) rw.interval else (rw.size : Int))
    ∧ (rw.lastTime - rw.interval < now ∧ now < rw.lastTime → rw.span now = 0)
    ∧ (now ≤ rw.lastTime - rw.interval → rw.span now = (rw.size : Int)) := by
  refine ⟨?_, ?_, ?_⟩
  · intro hle
    have he : 0 ≤ now - rw.lastTime := by omega
    have hfd : Int.fdiv (now - rw.lastTime) rw.interval
        = Int.tdiv (now - rw.lastTime) rw.interval := by
      rw [Int.fdiv_eq_ediv _ (le_of_lt hiv), Int.tdiv_eq_ediv he (le_of_lt hiv)]
    have ht : 0 ≤ Int.tdiv (now - rw.lastTime) rw.interval :=
      Int.tdiv_nonneg he (le_of_lt hiv)
    unfold RollingWindow.span
    rw [hfd]
    split_ifs <;> omega
  · intro hlt
    have h0 : Int.tdiv (now - rw.lastTime) rw.interval = 0 := by
      have h2 : Int.tdiv (rw.lastTime - now) rw.interval = 0 :=
        Int.tdiv_eq_zero_of_lt (by omega) (by omega)
      have h3 : now - rw.lastTime = -(rw.lastTime - now) := by ring
      rw [h3, Int.neg_tdiv, h2]
      omega
    unfold RollingWindow.span
    rw [h0]
    split_ifs <;> omega
  · intro hle
    have hpn : 0 ≤ rw.lastTime - now := by omega
    have h1 : 1 ≤ Int.tdiv (rw.lastTime - now) rw.interval := by
      rw [Int.tdiv_eq_ediv hpn (le_of_lt hiv)]
      exact (Int.le_ediv_iff_mul_le hiv).mpr (by omega)
    have h0 : Int.tdiv (now - rw.lastTime) rw.interval < 0 := by
      have h3 : now - rw.lastTime = -(rw.lastTime - now) := by ring
      rw [h3, Int.neg_tdiv]
      omega
    unfold RollingWindow.span
    split_ifs <;> omega

/-- C1 (witness): the amended characterization instantiated on a fresh
three-bucket controller read 25 time units after construction. -/
theorem span_characterization_witness :
    (1 ≤ w3.size ∧ (0 : Int) < w3.interval)
    ∧ ((w3.lastTime ≤ 25 →
        w3.span 25
          = if Int.fdiv (25 - w3.lastTime) w3.interval < (w3.size : Int)
            then Int.fdiv (25 - w3.lastTime) w3.interval else (w3.size : Int))
      ∧ (w3.lastTime - w3.interval < 25 ∧ 25 < w3.lastTime → w3.span 25 = 0)
      ∧ (25 ≤ w3.lastTime - w3.interval → w3.span 25 = (w3.size : Int))) :=
  ⟨⟨by decide, by decide⟩, span_characterization w3 25 (by decide) (by decide)⟩

/-- C2: for every controller state and clock reading, the `Reduce` visit
list is characterized as follows: when the valid-bucket count is
positive, the visited slots are exactly the consecutive ring slots
`(offset + span + 1 + i) % size` for `i` below the count, in ascending
order and each exactly once, and the number of visits is `size - 1` when
`span = 0` with `ignoreCurrent` set and `size - span` otherwise; when the
count is nonpositive, no slot is visited. -/
theorem reduce_visits (rw : RollingWindow) (now : Int) :
    (0 < rw.reduceDiff now →
      rw.reduceIndices now
          = (List.range (rw.reduceDiff now).toNat).map
              (fun i => (rw.offset + rw.spanNat now + 1 + i) % rw.size)
        ∧ (rw.reduceIndices now).length
            = (if rw.span now = 0 ∧ rw.ignoreCurrent then rw.size - 1
               else rw.size - rw.spanNat now)
        ∧ (rw.reduceIndices now).Nodup)
    ∧ (rw.reduceDiff now ≤ 0 → rw.reduceIndices now = []) := by
  constructor
  · intro hpos
    refine ⟨?_, ?_, ?_⟩
    · rw [reduceIndices_of_pos rw now hpos, winReduceIdx_eq]
      congr 1
      funext i
      unfold RollingWindow.reduceStart
      exact Nat.mod_add_mod _ _ _
    · rw [reduceIndices_length_of_pos rw now hpos]
      have hc := spanNat_cast rw now
      unfold RollingWindow.reduceDiff at hpos ⊢
      split_ifs at hpos ⊢ <;> omega
    · rw [reduceIndices_of_pos rw now hpos]
      refine winReduceIdx_nodup _ _ _ ?_
      have := reduceDiff_le_size rw now
      omega
  · intro hle
    exact reduceIndices_of_nonpos rw now hle

/-- C2 (witness): the visit characterization instantiated on a fresh
three-bucket controller reduced at construction time: all three slots
are visited, in ring order 1, 2, 0. -/
theorem reduce_visits_witness :
    w3.reduceIndices 0
        = (List.range (w3.reduceDiff 0).toNat).map
            (fun i => (w3.offset + w3.spanNat 0 + 1 + i) % w3.size)
      ∧ (w3.reduceIndices 0).length
          = (if w3.span 0 = 0 ∧ w3.ignoreCurrent then w3.size - 1
             else w3.size - w3.spanNat 0)
      ∧ (w3.reduceIndices 0).Nodup :=
  (reduce_visits w3 0).1 (by decide)

/-- When the span is positive, `updateOffset` realigns `lastTime` to
`now` minus the truncated remainder of the elapsed time by the
interval. -/
theorem updateOffset_lastTime_eq (rw : RollingWindow) (now : Int)
    (hsp : 0 < rw.span now) :
    (rw.updateOffset now).lastTime = now - Int.tmod (now - rw.lastTime) rw.interval := by
  unfold RollingWindow.updateOffset
  rw [if_neg (by omega)]

/-- C3 (counterexample): with three buckets, interval 10 and `lastTime`
100, a clock reading of 85 (a regression of one and a half intervals)
clamps the span to 3, so the cursor advances; the realigned `lastTime`
is `85 - tmod (-15) 10 = 85 - (-5) = 90`, which lies strictly *after*
the clock reading 85, contradicting the claim that the new `lastTime`
lies at or before `now` (the spec's `mod` realignment, read as Euclidean
remainder, would give 80 instead). -/
theorem c3_lastTime_counterexample :
    0 < w3b.span 85
    ∧ (w3b.updateOffset 85).lastTime = 90
    ∧ ¬(w3b.updateOffset 85).lastTime ≤ 85
    ∧ 85 - (85 - w3b.lastTime) % w3b.interval = 80 := by
  refine ⟨by decide, by decide, by decide, by decide⟩

/-- C3 (amended): immediately after a cursor advance (span positive), the
new `lastTime` is `now` minus the Go-truncated remainder of
`now - lastTime` by the interval; it is congruent to the old `lastTime`
modulo the interval (no drift accumulates), and `now - lastTime <
interval` holds afterwards. It lies at or before `now` provided the
clock did not regress past the old `lastTime`; under a clock regression
of at least one interval it can lie after `now`. -/
theorem updateOffset_lastTime_aligned (rw : RollingWindow) (now : Int)
    (hiv : 0 < rw.interval) (hsp : 0 < rw.span now) :
    (rw.updateOffset now).lastTime = now - Int.tmod (now - rw.lastTime) rw.interval
    ∧ ((rw.updateOffset now).lastTime - rw.lastTime) % rw.interval = 0
    ∧ now - (rw.updateOffset now).lastTime < rw.interval
    ∧ (rw.lastTime ≤ now → (rw.updateOffset now).lastTime ≤ now) := by
  have h1 := updateOffset_lastTime_eq rw now hsp
  refine ⟨h1, ?_, ?_, ?_⟩
  · rw [h1]
    have h2 := Int.tdiv_add_tmod (now - rw.lastTime) rw.interval
    have h3 : now - Int.tmod (now - rw.lastTime) rw.interval - rw.lastTime
        = rw.interval * Int.tdiv (now - rw.lastTime) rw.interval := by omega
    rw [h3]
    exact Int.mul_emod_right _ _
  · rw [h1]
    have := Int.tmod_lt_of_pos (now - rw.lastTime) hiv
    omega
  · intro hle
    rw [h1]
    have := Int.tmod_nonneg rw.interval (show 0 ≤ now - rw.lastTime by omega)
    omega

/-- C3 (witness): the amended alignment facts instantiated on a fresh
three-bucket controller advanced 25 time units after construction: the
span is 2 and the new `lastTime` is 20. -/
theorem updateOffset_lastTime_aligned_witness :
    ((0 : Int) < w3.interval ∧ 0 < w3.span 25)
    ∧ ((w3.updateOffset 25).lastTime = 25 - Int.tmod (25 - w3.lastTime) w3.interval
      ∧ ((w3.updateOffset 25).lastTime - w3.lastTime) % w3.interval = 0
      ∧ 25 - (w3.updateOffset 25).lastTime < w3.interval
      ∧ (w3.lastTime ≤ 25 → (w3.updateOffset 25).lastTime ≤ 25)) :=
  ⟨⟨by decide, by decide⟩, updateOffset_lastTime_aligned w3 25 (by decide) (by decide)⟩

/-- C5 (Scenario A): on a fresh three-bucket controller with interval 10
built at time 0, `Add 1` at time 0 followed by an immediate `Reduce`
visits 3 buckets totalling sum 1 and count 1 without `IgnoreCurrentBucket`,
and 2 buckets totalling sum 0 and count 0 with it. -/
theorem scenarioA :
    NewRollingWindow 3 10 false 0 = some w3
    ∧ NewRollingWindow 3 10 true 0 = some w3i
    ∧ ((w3.Add 0 1).visitedBuckets 0).length = 3
    ∧ sumTotal ((w3.Add 0 1).visitedBuckets 0) = 1
    ∧ countTotal ((w3.Add 0 1).visitedBuckets 0) = 1
    ∧ ((w3i.Add 0 1).visitedBuckets 0).length = 2
    ∧ sumTotal ((w3i.Add 0 1).visitedBuckets 0) = 0
    ∧ countTotal ((w3i.Add 0 1).visitedBuckets 0) = 0 := by
  refine ⟨by decide, by decide, by decide, ?_, by decide, by decide, ?_, by decide⟩
  · simp [w3, RollingWindow.Add, RollingWindow.updateOffset, RollingWindow.span,
      RollingWindow.visitedBuckets, RollingWindow.reduceIndices, RollingWindow.reduceDiff,
      RollingWindow.reduceStart, RollingWindow.spanNat, winAdd, winResetBucket, winReduceIdx,
      sumTotal, Bucket.add, Bucket.reset, List.replicate, List.getD]
  · simp [w3i, w3, RollingWindow.Add, RollingWindow.updateOffset, RollingWindow.span,
      RollingWindow.visitedBuckets, RollingWindow.reduceIndices, RollingWindow.reduceDiff,
      RollingWindow.reduceStart, RollingWindow.spanNat, winAdd, winResetBucket, winReduceIdx,
      sumTotal, Bucket.add, Bucket.reset, List.replicate, List.getD]

/-- C4 (Scenario B): on the same fresh controller, `Add 1` at time 0 and
`Add 2` at time 10 (one interval later) followed by a `Reduce` at time 10
without `IgnoreCurrentBucket` visits 3 buckets, among them the bucket
written at time 0 (sum 1, count 1), with totals sum 3 and count 2. -/
theorem scenarioB :
    NewRollingWindow 3 10 false 0 = some w3
    ∧ (((w3.Add 0 1).Add 10 2).visitedBuckets 10).length = 3
    ∧ Bucket.mk 1 1 ∈ ((w3.Add 0 1).Add 10 2).visitedBuckets 10
    ∧ sumTotal (((w3.Add 0 1).Add 10 2).visitedBuckets 10) = 3
    ∧ countTotal (((w3.Add 0 1).Add 10 2).visitedBuckets 10) = 2 := by
  refine ⟨by decide, by decide, ?_, ?_, by decide⟩
  · simp [w3, RollingWindow.Add, RollingWindow.updateOffset, RollingWindow.span,
      RollingWindow.visitedBuckets, RollingWindow.reduceIndices, RollingWindow.reduceDiff,
      RollingWindow.reduceStart, RollingWindow.spanNat, winAdd, winResetBucket, winReduceIdx,
      Bucket.add, Bucket.reset, List.replicate, List.getD, List.range_succ]
  · simp [w3, RollingWindow.Add, RollingWindow.updateOffset, RollingWindow.span,
      RollingWindow.visitedBuckets, RollingWindow.reduceIndices, RollingWindow.reduceDiff,
      RollingWindow.reduceStart, RollingWindow.spanNat, winAdd, winResetBucket, winReduceIdx,
      sumTotal, Bucket.add, Bucket.reset, List.replicate, List.getD, List.range_succ]
    norm_num

/-- The cursor advance preserves the bucket count. -/
theorem updateOffset_size (rw : RollingWindow) (now : Int) :
    (rw.updateOffset now).size = rw.size := by
  unfold RollingWindow.updateOffset
  split <;> rfl

/-- Writes preserve the bucket count. -/
theorem add_size (rw : RollingWindow) (now : Int) (v : Rat) :
    (rw.Add now v).size = rw.size := by
  show (rw.updateOffset now).size = rw.size
  exact updateOffset_size rw now

/-- Single calls preserve the bucket count. -/
theorem step_size (rw : RollingWindow) (e : Event) : (step rw e).size = rw.size := by
  cases e with
  | add now v => exact add_size rw now v
  | reduce now => rfl

/-- Whole runs preserve the bucket count. -/
theorem exec_size (tr : List Event) (rw : RollingWindow) :
    (exec rw tr).size = rw.size := by
  induction tr generalizing rw with
  | nil => rfl
  | cons e es ih => rw [exec, ih, step_size]

/-- For any state with at least one bucket, the `Reduce` visit count is
at most `size`, and reaches `size` exactly when the current span is 0 and
`ignoreCurrent` is unset. -/
theorem reduceIndices_length_size (rw : RollingWindow) (now : Int) (hsz : 1 ≤ rw.size) :
    (rw.reduceIndices now).length ≤ rw.size
    ∧ ((rw.reduceIndices now).length = rw.size
        ↔ rw.span now = 0 ∧ rw.ignoreCurrent = false) := by
  have hsp0 := span_nonneg rw now
  have hsple := span_le_size rw now
  refine ⟨?_, ?_, ?_⟩
  · by_cases hpos : 0 < rw.reduceDiff now
    · have h1 := reduceIndices_length_of_pos rw now hpos
      have h2 := reduceDiff_le_size rw now
      omega
    · rw [reduceIndices_of_nonpos rw now (by omega)]
      exact Nat.zero_le _
  · intro hl
    by_cases hpos : 0 < rw.reduceDiff now
    · have hlen := reduceIndices_length_of_pos rw now hpos
      have hdn : (rw.reduceDiff now).toNat = rw.size := by omega
      unfold RollingWindow.reduceDiff at hdn hpos
      by_cases hc : rw.span now = 0 ∧ rw.ignoreCurrent = true
      · rw [if_pos hc] at hdn
        omega
      · rw [if_neg hc] at hdn
        have hspz : rw.span now = 0 := by omega
        refine ⟨hspz, ?_⟩
        cases hig : rw.ignoreCurrent
        · rfl
        · exact absurd ⟨hspz, hig⟩ hc
    · rw [reduceIndices_of_nonpos rw now (by omega)] at hl
      simp at hl
      omega
  · rintro ⟨hspz, hig⟩
    have hdq : rw.reduceDiff now = (rw.size : Int) := by
      unfold RollingWindow.reduceDiff
      rw [if_neg (by simp [hig])]
      rw [hspz]
      ring
    have hpos : 0 < rw.reduceDiff now := by omega
    have hlen := reduceIndices_length_of_pos rw now hpos
    omega

/-- C6 (counterexample): starting from a fresh three-bucket controller
with `ignoreCurrent` unset, the run `Add 1` at time 0, `Add 2` at time
100 makes every bucket stale at the second `Add` (its span clamps to 3,
resetting the whole ring), yet the `Reduce` at time 100 right after it
visits `size = 3` buckets — so visiting `size` buckets does not imply
that no bucket ever became stale. -/
theorem c6_counterexample :
    (exec w3 [Event.add 0 1, Event.add 100 2]).ignoreCurrent = false
    ∧ anyStale w3 [Event.add 0 1, Event.add 100 2, Event.reduce 100] = true
    ∧ ((exec w3 [Event.add 0 1, Event.add 100 2]).reduceIndices 100).length
        = (exec w3 [Event.add 0 1, Event.add 100 2]).size := by
  refine ⟨by decide, by decide, by decide⟩

/-- C6 (amended): over every run of `Add`/`Reduce` calls from a freshly
constructed controller, the number of buckets visited by a `Reduce` is
in `[0, size]`, and it equals `size` exactly when, at that `Reduce`, the
span is 0 and `ignoreCurrent` is unset — i.e. no bucket is *currently*
stale or excluded, regardless of whether buckets became stale earlier in
the run. -/
theorem reduce_count_invariant (size interval : Int) (ig : Bool) (t0 : Int)
    (rw0 : RollingWindow) (hnew : NewRollingWindow size interval ig t0 = some rw0)
    (tr : List Event) (now : Int) :
    ((exec rw0 tr).reduceIndices now).length ≤ (exec rw0 tr).size
    ∧ (((exec rw0 tr).reduceIndices now).length = (exec rw0 tr).size
        ↔ (exec rw0 tr).span now = 0 ∧ (exec rw0 tr).ignoreCurrent = false) := by
  have hsz : 1 ≤ rw0.size := by
    unfold NewRollingWindow at hnew
    split_ifs at hnew with h
    simp only [Option.some.injEq] at hnew
    subst hnew
    show 1 ≤ size.toNat
    omega
  have hsz2 : 1 ≤ (exec rw0 tr).size := by
    rw [exec_size]
    exact hsz
  exact reduceIndices_length_size (exec rw0 tr) now hsz2

/-- C6 (witness): the amended invariant instantiated on the run that
performs one `Add` at time 0 and reduces at time 0. -/
theorem reduce_count_invariant_witness :
    ((exec w3 [Event.add 0 1]).reduceIndices 0).length ≤ (exec w3 [Event.add 0 1]).size
    ∧ (((exec w3 [Event.add 0 1]).reduceIndices 0).length = (exec w3 [Event.add 0 1]).size
        ↔ (exec w3 [Event.add 0 1]).span 0 = 0
          ∧ (exec w3 [Event.add 0 1]).ignoreCurrent = false) :=
  reduce_count_invariant 3 10 false 0 w3 (by decide) [Event.add 0 1] 0

/-- The advanced cursor stays below `size` when it started below
`size`. -/
theorem updateOffset_offset_lt (rw : RollingWindow) (now : Int)
    (hsz : 1 ≤ rw.size) (hoff : rw.offset < rw.size) :
    (rw.updateOffset now).offset < rw.size := by
  unfold RollingWindow.updateOffset
  split
  · exact hoff
  · exact Nat.mod_lt _ (by omega)

/-- Resetting a bucket preserves the ring length. -/
theorem winResetBucket_length (size : Nat) (bs : List Bucket) (k : Nat) :
    (winResetBucket size bs k).length = bs.length := by
  simp [winResetBucket]

/-- Writing into a bucket preserves the ring length. -/
theorem winAdd_length (size : Nat) (bs : List Bucket) (k : Nat) (v : Rat) :
    (winAdd size bs k v).length = bs.length := by
  simp [winAdd]

/-- The cursor advance preserves the ring length. -/
theorem updateOffset_buckets_length (rw : RollingWindow) (now : Int) :
    (rw.updateOffset now).buckets.length = rw.buckets.length := by
  unfold RollingWindow.updateOffset
  split
  · rfl
  · have h : ∀ (idxs : List Nat) (bs : List Bucket),
        (idxs.foldl (fun bs i => winResetBucket rw.size bs ((rw.offset + i + 1) % rw.size))
            bs).length = bs.length := by
      intro idxs
      induction idxs with
      | nil => intro bs; rfl
      | cons a t ih =>
        intro bs
        rw [List.foldl_cons, ih, winResetBucket_length]
    exact h _ _

/-- Writes preserve the ring length. -/
theorem add_buckets_length (rw : RollingWindow) (now : Int) (v : Rat) :
    (rw.Add now v).buckets.length = rw.buckets.length := by
  show (winAdd _ _ _ v).length = _
  rw [winAdd_length, updateOffset_buckets_length]

/-- C7: after any `Add` — including one whose clock reading lies before
`lastTime`, where the span clamps to `size` and the reset loop walks the
whole ring — the cursor stays in `[0, size)`, the ring keeps its `size`
buckets, and every ring index the call touches is strictly below the
ring length (no negative or out-of-range access). -/
theorem add_cursor_in_range (rw : RollingWindow) (now : Int) (v : Rat)
    (hsz : 1 ≤ rw.size) (hoff : rw.offset < rw.size)
    (hlen : rw.buckets.length = rw.size) :
    (rw.Add now v).offset < rw.size
    ∧ (rw.Add now v).buckets.length = rw.size
    ∧ (rw.addAccesses now).all (fun j => decide (j < rw.buckets.length)) = true := by
  refine ⟨?_, ?_, ?_⟩
  · show (rw.updateOffset now).offset < rw.size
    exact updateOffset_offset_lt rw now hsz hoff
  · rw [add_buckets_length, hlen]
  · rw [List.all_eq_true]
    intro j hj
    rw [decide_eq_true_eq]
    unfold RollingWindow.addAccesses at hj
    rcases List.mem_append.mp hj with h1 | h2
    · obtain ⟨i, _, rfl⟩ := List.mem_map.mp h1
      rw [hlen]
      exact Nat.mod_lt _ (by omega)
    · rw [List.mem_singleton] at h2
      subst h2
      rw [hlen]
      exact Nat.mod_lt _ (by omega)

/-- C7 (witness): the in-range facts instantiated on a controller whose
clock regressed from 100 to 50 (five intervals back): the span clamps to
`size = 3`, the whole ring is reset, and all accesses stay in range. -/
theorem add_cursor_in_range_witness :
    (1 ≤ w3b.size ∧ w3b.offset < w3b.size ∧ w3b.buckets.length = w3b.size
      ∧ 50 < w3b.lastTime ∧ w3b.spanNat 50 = w3b.size)
    ∧ ((w3b.Add 50 1).offset < w3b.size
      ∧ (w3b.Add 50 1).buckets.length = w3b.size
      ∧ (w3b.addAccesses 50).all (fun j => decide (j < w3b.buckets.length)) = true) :=
  ⟨⟨by decide, by decide, by decide, by decide, by decide⟩,
    add_cursor_in_range w3b 50 1 (by decide) (by decide) (by decide)⟩

/-- C8: a `Reduce` whose visitor does not mutate the buckets handed to
it leaves the whole controller state — cursor, `lastTime`,
`ignoreCurrent`, and every bucket — exactly as it was: reading never
advances the cursor. -/
theorem reduce_state_unchanged (rw : RollingWindow) (now : Int) (fn : Bucket → Bucket)
    (hfn : ∀ b, fn b = b) :
    rw.Reduce now fn = rw := by
  unfold RollingWindow.Reduce
  have h : ∀ (idxs : List Nat) (bs : List Bucket),
      idxs.foldl (fun bs j => bs.set j (fn (bs.getD j ⟨0, 0⟩))) bs = bs := by
    intro idxs
    induction idxs with
    | nil => intro bs; rfl
    | cons a t ih =>
      intro bs
      rw [List.foldl_cons, hfn, setGetDSelf]
      exact ih bs
  rw [h]

/-- C8 (witness): a `Reduce` with the identity visitor on a fresh
three-bucket controller returns the state unchanged. -/
theorem reduce_state_unchanged_witness :
    w3.Reduce 0 (fun b => b) = w3 :=
  reduce_state_unchanged w3 0 (fun b => b) (fun _ => rfl)

/-- C9: construction fails (Go panics) exactly when `size < 1`; for
every `size ≥ 1` it yields a controller whose ring holds `size` empty
buckets, with the cursor at 0 and `lastTime` at the construction-time
clock reading. -/
theorem new_rolling_window_spec (size interval : Int) (ig : Bool) (t0 : Int) :
    (NewRollingWindow size interval ig t0 = none ↔ size < 1)
    ∧ (1 ≤ size →
        NewRollingWindow size interval ig t0
          = some { size := size.toNat,
                   buckets := List.replicate size.toNat ⟨0, 0⟩,
                   interval := interval, offset := 0, ignoreCurrent := ig,
                   lastTime := t0 }
        ∧ (size.toNat : Int) = size) := by
  constructor
  · unfold NewRollingWindow
    split_ifs with h
    · simp [h]
    · simp [h]
  · intro h1
    refine ⟨?_, by omega⟩
    unfold NewRollingWindow
    rw [if_neg (by omega)]

/-- C9 (witness): the constructor contract instantiated at `size = 3`. -/
theorem new_rolling_window_spec_witness :
    (1 : Int) ≤ 3
    ∧ (NewRollingWindow 3 10 false 0
        = some { size := (3 : Int).toNat,
                 buckets := List.replicate (3 : Int).toNat ⟨0, 0⟩,
                 interval := 10, offset := 0, ignoreCurrent := false,
                 lastTime := 0 }
      ∧ ((3 : Int).toNat : Int) = 3) :=
  ⟨by decide, (new_rolling_window_spec 3 10 false 0).2 (by decide)⟩

/-- C10: the constructor does not validate the interval: for every
`size ≥ 1` it succeeds with interval 0, and on the resulting instance
every `Add` and every `Reduce` hits the division by zero inside `span`
(a Go run-time panic, modelled as `none`), even though the only
documented error class is `size < 1`. -/
theorem interval_not_validated (size : Int) (ig : Bool) (t0 : Int) (hsz : 1 ≤ size) :
    (∃ s, NewRollingWindow size 0 ig t0 = some s)
    ∧ ∀ s, NewRollingWindow size 0 ig t0 = some s →
        ∀ (now : Int) (v : Rat) (fn : Bucket → Bucket),
          s.AddChecked now v = none ∧ s.ReduceChecked now fn = none := by
  constructor
  · have h2 : NewRollingWindow size 0 ig t0
        = some { size := size.toNat,
                 buckets := List.replicate size.toNat ⟨0, 0⟩,
                 interval := 0, offset := 0, ignoreCurrent := ig,
                 lastTime := t0 } := by
      unfold NewRollingWindow
      rw [if_neg (by omega)]
    exact ⟨_, h2⟩
  · intro s hs now v fn
    have hi : s.interval = 0 := by
      unfold NewRollingWindow at hs
      rw [if_neg (by omega)] at hs
      simp only [Option.some.injEq] at hs
      rw [← hs]
    constructor
    · simp [RollingWindow.AddChecked, RollingWindow.spanChecked, hi]
    · simp [RollingWindow.ReduceChecked, RollingWindow.spanChecked, hi]

/-- C10 (witness): a three-bucket controller built with interval 0
constructs fine, then both operations fault. -/
theorem interval_not_validated_witness :
    (1 : Int) ≤ 3
    ∧ wz.AddChecked 5 1 = none ∧ wz.ReduceChecked 5 (fun b => b) = none :=
  ⟨by decide, (interval_not_validated 3 false 0 (by decide)).2 wz (by decide) 5 1 (fun b => b)⟩
